import Mathlib

/-!
Verification development for `scripts/op_roofed_watch.py` (Ontario Parks
roofed-accommodation watcher).

The script's core logic is embedded shallowly:

* Python string operations (`str.strip`, `str.lower`, `str.split`, substring
  test, digit extraction) are defined on `List Char` so that every definition
  evaluates inside the kernel.
* `match_preference`, `pick_location`, `build_roofed_category_ids` and the
  availability filter of `main` are translated as pure functions over typed
  records mirroring the JSON shapes the script consumes.
* `build_cart_commit_payload` works on raw JSON dictionaries, so a `Json`
  value type with Python dictionary/list semantics (truthiness, `dict.get`,
  `dict.setdefault`, list concatenation, crash on ill-typed access) is used;
  a call that would raise `TypeError`/`AttributeError` is modelled as `none`.
* The fresh values produced by `uuid.uuid4()` and `iso_now()` are explicit
  parameters of the embedded builder.
-/

deriving instance DecidableEq for Except

namespace OPWatch

/-! ### Python string primitives (char-list based, kernel-computable) -/

/-- Python `s.strip()`: remove leading and trailing whitespace. -/
def pyStrip (s : String) : String :=
  String.mk (((s.data.dropWhile Char.isWhitespace).reverse.dropWhile
    Char.isWhitespace).reverse)

/-- Python `s.lower()`. -/
def pyLower (s : String) : String :=
  String.mk (s.data.map Char.toLower)

/-- Python `s.split()`: split on whitespace runs, dropping empty pieces. -/
def pyWords (s : String) : List String :=
  ((s.data.splitOnP Char.isWhitespace).filter (· ≠ [])).map String.mk

/-- Python `" ".join(ws)`. -/
def joinSpace : List String → String
  | [] => ""
  | [w] => w
  | w :: ws => w ++ " " ++ joinSpace ws

/-- Python `needle in hay` on strings: contiguous substring test. -/
def strContains (hay needle : String) : Bool :=
  (List.range (hay.data.length + 1)).any fun i => needle.data.isPrefixOf (hay.data.drop i)

/-! ### `normalize` (source line 120-121) -/

/-- Source `normalize(s) = " ".join(s.lower().split())`. -/
def normalize (s : String) : String :=
  joinSpace (pyWords (pyLower s))

/-! ### `normalize_site_token` and `match_preference` (source lines 80-101) -/

/-- Source `normalize_site_token(s)`: the digit characters of `s`, or `None` if there
are none (`digits or None`). -/
def normalize_site_token (s : String) : Option String :=
  let digits := String.mk (s.data.filter Char.isDigit)
  if digits = "" then none else some digits

/-- The per-token test inside the `match_preference` loop: exact
case-insensitive stripped equality, or equality of the non-empty digit
extractions of token and name. -/
def pref_token_hit (name_norm : String) (name_digits : Option String)
    (pref : String) : Bool :=
  let pref_norm := pyLower (pyStrip pref)
  if pref_norm == name_norm then true
  else
    match normalize_site_token pref_norm, name_digits with
    | some pd, some nd => pd == nd
    | _, _ => false

/-- The indexed loop of `match_preference`. -/
def matchFrom (name_norm : String) (name_digits : Option String) :
    Nat → List String → Option Nat
  | _, [] => none
  | idx, pref :: rest =>
      if pref_token_hit name_norm name_digits pref then some idx
      else matchFrom name_norm name_digits (idx + 1) rest

/-- Source `match_preference(resource_name, preferred)`. -/
def match_preference (resource_name : String) (preferred : List String) :
    Option Nat :=
  matchFrom (pyLower (pyStrip resource_name)) (normalize_site_token resource_name)
    0 preferred

/-! ### Available-resource records and best-match selection (source 443-460) -/

/-- The record appended to `available` in `main` (lines 443-447). -/
structure AvailRes where
  resourceId : Int
  name : String
  categoryId : Int
deriving DecidableEq, Repr

/-- The `ranked` list: pairs `(idx, item)` for each available item matching a
preference (lines 453-457). -/
def rankedPairs (available : List AvailRes) (preferred : List String) :
    List (Nat × AvailRes) :=
  available.filterMap fun item =>
    (match_preference item.name preferred).map fun idx => (idx, item)

/-- Best-match selection (lines 450-460): if the preference list is non-empty,
stable-sort `ranked` by preference index and take the first element. Python's
`list.sort` is stable; `List.insertionSort` with `≤` on the index is the
stable sort used here. -/
def best_match (available : List AvailRes) (preferred : List String) :
    Option AvailRes :=
  if preferred.isEmpty then none
  else
    match List.insertionSort (fun a b => a.1 ≤ b.1)
        (rankedPairs available preferred) with
    | [] => none
    | x :: _ => some x.2

/-! ### `pick_location` (source lines 124-135) -/

/-- A location record; `fullName` is `localizedValues[0].fullName` per the
data model. -/
structure Location where
  resourceLocationId : Int
  fullName : String
deriving DecidableEq, Repr

/-- The two `ValueError`s of `pick_location`: "No park matches" and
"Multiple parks match" (with the first ten candidate names). -/
inductive PickError where
  | notFound (query : String)
  | ambiguous (query : String) (names : List String)
deriving DecidableEq, Repr

/-- Source `pick_location(locations, query)`. -/
def pick_location (locations : List Location) (query : String) :
    Except PickError Location :=
  let q := normalize query
  let exact := locations.filter fun l => normalize l.fullName == q
  match exact with
  | l :: _ => .ok l
  | [] =>
    let sub := locations.filter fun l => strContains (normalize l.fullName) q
    match sub with
    | [l] => .ok l
    | [] => .error (.notFound query)
    | _ => .error (.ambiguous query ((sub.take 10).map (·.fullName)))

/-! ### `build_roofed_category_ids` (source lines 138-145) -/

/-- A category record: `resourceCategoryId` plus
`localizedValues[0].name` (absent or `null` modelled as `none`; the code
turns both into `""` via `.get("name", "") or ""`). -/
structure Category where
  resourceCategoryId : Int
  name : Option String
deriving DecidableEq, Repr

/-- Source `build_roofed_category_ids(categories, keywords) = sorted(set(out))` where
`out` collects `resourceCategoryId` of every category whose lowered name
contains some lowered keyword. `sorted(set(out))` is the ascending
duplicate-free listing of `out`'s elements, here `insertionSort` of `dedup`. -/
def build_roofed_category_ids (categories : List Category)
    (keywords : List String) : List Int :=
  let keys := keywords.map pyLower
  let out := (categories.filter fun c =>
    keys.any fun k => strContains (pyLower (c.name.getD "")) k).map
      (·.resourceCategoryId)
  List.insertionSort (· ≤ ·) out.dedup

/-! ### Availability filter in `main` (source lines 435-447) -/

/-- One element of a `DailyAvailability` sequence:
`{availability, remainingQuota}`. -/
structure DailyEntry where
  availability : Int
  remainingQuota : Option Int
deriving DecidableEq, Repr

/-- The availability loop body (lines 435-447), restricted to resource ids:
skip ids outside the roofed set, keep an id exactly when
`daily and all(d.get("availability") == available_code for d in daily)`. -/
def collect_available (entries : List (Int × List DailyEntry))
    (roofed : List Int) (code : Int) : List Int :=
  match entries with
  | [] => []
  | (rid, daily) :: rest =>
    if roofed.contains rid then
      if !daily.isEmpty && daily.all (fun d => d.availability == code) then
        rid :: collect_available rest roofed code
      else collect_available rest roofed code
    else collect_available rest roofed code

/-! ### JSON values with Python dict/list semantics -/

/-- A JSON value, as traversed by the script's dict/list code. Numbers are
integers (the script only handles ids, counts and status codes). -/
inductive Json where
  | null : Json
  | bool : Bool → Json
  | num : Int → Json
  | str : String → Json
  | arr : List Json → Json
  | obj : List (String × Json) → Json

mutual

/-- Decidable equality on `Json` (hand-written: the nested inductive defeats
`deriving`). -/
def Json.decEq : (a b : Json) → Decidable (a = b)
  | .null, .null => .isTrue rfl
  | .bool a, .bool b =>
    if h : a = b then .isTrue (by rw [h]) else .isFalse fun he => h (Json.bool.inj he)
  | .num a, .num b =>
    if h : a = b then .isTrue (by rw [h]) else .isFalse fun he => h (Json.num.inj he)
  | .str a, .str b =>
    if h : a = b then .isTrue (by rw [h]) else .isFalse fun he => h (Json.str.inj he)
  | .arr xs, .arr ys =>
    match Json.decEqList xs ys with
    | .isTrue h => .isTrue (by rw [h])
    | .isFalse h => .isFalse fun he => h (Json.arr.inj he)
  | .obj xs, .obj ys =>
    match Json.decEqKVs xs ys with
    | .isTrue h => .isTrue (by rw [h])
    | .isFalse h => .isFalse fun he => h (Json.obj.inj he)
  | .null, .bool _ => .isFalse fun h => nomatch h
  | .null, .num _ => .isFalse fun h => nomatch h
  | .null, .str _ => .isFalse fun h => nomatch h
  | .null, .arr _ => .isFalse fun h => nomatch h
  | .null, .obj _ => .isFalse fun h => nomatch h
  | .bool _, .null => .isFalse fun h => nomatch h
  | .bool _, .num _ => .isFalse fun h => nomatch h
  | .bool _, .str _ => .isFalse fun h => nomatch h
  | .bool _, .arr _ => .isFalse fun h => nomatch h
  | .bool _, .obj _ => .isFalse fun h => nomatch h
  | .num _, .null => .isFalse fun h => nomatch h
  | .num _, .bool _ => .isFalse fun h => nomatch h
  | .num _, .str _ => .isFalse fun h => nomatch h
  | .num _, .arr _ => .isFalse fun h => nomatch h
  | .num _, .obj _ => .isFalse fun h => nomatch h
  | .str _, .null => .isFalse fun h => nomatch h
  | .str _, .bool _ => .isFalse fun h => nomatch h
  | .str _, .num _ => .isFalse fun h => nomatch h
  | .str _, .arr _ => .isFalse fun h => nomatch h
  | .str _, .obj _ => .isFalse fun h => nomatch h
  | .arr _, .null => .isFalse fun h => nomatch h
  | .arr _, .bool _ => .isFalse fun h => nomatch h
  | .arr _, .num _ => .isFalse fun h => nomatch h
  | .arr _, .str _ => .isFalse fun h => nomatch h
  | .arr _, .obj _ => .isFalse fun h => nomatch h
  | .obj _, .null => .isFalse fun h => nomatch h
  | .obj _, .bool _ => .isFalse fun h => nomatch h
  | .obj _, .num _ => .isFalse fun h => nomatch h
  | .obj _, .str _ => .isFalse fun h => nomatch h
  | .obj _, .arr _ => .isFalse fun h => nomatch h

def Json.decEqList : (a b : List Json) → Decidable (a = b)
  | [], [] => .isTrue rfl
  | [], _ :: _ => .isFalse fun h => nomatch h
  | _ :: _, [] => .isFalse fun h => nomatch h
  | x :: xs, y :: ys =>
    match Json.decEq x y with
    | .isFalse h => .isFalse fun he => h (List.cons.inj he).1
    | .isTrue h1 =>
      match Json.decEqList xs ys with
      | .isTrue h2 => .isTrue (by rw [h1, h2])
      | .isFalse h2 => .isFalse fun he => h2 (List.cons.inj he).2

def Json.decEqKVs : (a b : List (String × Json)) → Decidable (a = b)
  | [], [] => .isTrue rfl
  | [], _ :: _ => .isFalse fun h => nomatch h
  | _ :: _, [] => .isFalse fun h => nomatch h
  | (k, v) :: xs, (k', v') :: ys =>
    if hk : k = k' then
      match Json.decEq v v' with
      | .isFalse h => .isFalse fun he => by
          injection he with hhd htl
          injection hhd with h1 h2
          exact h h2
      | .isTrue h1 =>
        match Json.decEqKVs xs ys with
        | .isTrue h2 => .isTrue (by rw [hk, h1, h2])
        | .isFalse h2 => .isFalse fun he => h2 (List.cons.inj he).2
    else
      .isFalse fun he => by
        injection he with hhd htl
        injection hhd with h1 h2
        exact hk h1

end

instance : DecidableEq Json := Json.decEq

/-- First-key lookup in an association list (Python dict keys are unique, but
the model is total). -/
def lookupKV : List (String × Json) → String → Option Json
  | [], _ => none
  | (k', v) :: rest, k => if k' = k then some v else lookupKV rest k

/-- Python `d[k] = v`: replace in place, or append when the key is absent (Python
dict insertion order). -/
def setKV : List (String × Json) → String → Json → List (String × Json)
  | [], k, v => [(k, v)]
  | (k', v') :: rest, k, v =>
      if k' = k then (k', v) :: rest else (k', v') :: setKV rest k v

/-- Python `d.setdefault(k, v)` on the underlying association list. -/
def sdKV (kvs : List (String × Json)) (k : String) (v : Json) :
    List (String × Json) :=
  match lookupKV kvs k with
  | some _ => kvs
  | none => kvs ++ [(k, v)]

/-- Apply `f` to the value stored at `k` (if present); used only to state
"fields differ only at ..." properties. -/
def modifyKV (kvs : List (String × Json)) (k : String) (f : Json → Json) :
    List (String × Json) :=
  match kvs with
  | [] => []
  | (k', v) :: rest =>
      if k' = k then (k', f v) :: rest else (k', v) :: modifyKV rest k f

/-- Value at key `k` when `j` is a dict having it (statement-level accessor). -/
def Json.get? (j : Json) (k : String) : Option Json :=
  match j with
  | .obj kvs => lookupKV kvs k
  | _ => none

/-- Path accessor for statements. -/
def Json.getIn (j : Json) : List String → Option Json
  | [] => some j
  | k :: ks =>
    match j.get? k with
    | some v => v.getIn ks
    | none => none

/-- Keys of a dict. -/
def Json.keys : Json → List String
  | .obj kvs => kvs.map Prod.fst
  | _ => []

/-- Python truthiness of a JSON value. -/
def pyTruthy : Json → Bool
  | .null => false
  | .bool b => b
  | .num n => n != 0
  | .str s => !(s == "")
  | .arr xs => !xs.isEmpty
  | .obj kvs => !kvs.isEmpty

/-- Python `a or b` (value-returning, first truthy operand wins). -/
def pyOr (a b : Json) : Json := if pyTruthy a then a else b

/-- Python `d.get(k, default)`; `none` models the `AttributeError` crash on a
non-dict receiver. Python's one-argument `d.get(k)` is `dictGetD d k .null`. -/
def dictGetD : Json → String → Json → Option Json
  | .obj kvs, k, d => some ((lookupKV kvs k).getD d)
  | _, _, _ => none

/-- Python `d[k] = v`; `none` models the crash on a non-dict receiver. -/
def dictSet : Json → String → Json → Option Json
  | .obj kvs, k, v => some (.obj (setKV kvs k v))
  | _, _, _ => none

/-- Python `d.setdefault(k, v)`; `none` models the crash on a non-dict receiver. -/
def dictSetdefault : Json → String → Json → Option Json
  | .obj kvs, k, v => some (.obj (sdKV kvs k v))
  | _, _, _ => none

/-- The list content of `x or []`; `none` models the `TypeError` raised by
`(x or []) + [y]` when the truthy `x` is not a list. -/
def pyOrList (x : Json) : Option (List Json) :=
  match pyOr x (.arr []) with
  | .arr xs => some xs
  | _ => none

/-- Python `(x or []) + [y]`. -/
def pyAppendOne (x y : Json) : Option Json :=
  (pyOrList x).map fun xs => .arr (xs ++ [y])

/-! ### `build_cart_commit_payload` (source lines 162-277) -/

/-- Lines 174-177:
`cart.get("newTransaction", {}).get("cartTransactionUid") or
cart.get("createTransactionUid")`. -/
def resolveTx (cart : Json) : Option Json :=
  (dictGetD cart "newTransaction" (.obj [])).bind fun nt =>
    (dictGetD nt "cartTransactionUid" .null).bind fun ntx =>
      (dictGetD cart "createTransactionUid" .null).bind fun ctx =>
        some (pyOr ntx ctx)

/-- The booking dict literal (lines 185-245). The fresh `uuid.uuid4()` values
and `iso_now()` timestamp are the `booking_uid`, `blocker_uid`, `now`
parameters. -/
def mkBooking (cart_uid cart_tx_uid : Json) (booking_category_id : Int)
    (party_size : Int) (resource_location_id : Int)
    (start_date end_date : String) (preferred_culture_name : String)
    (booking_uid blocker_uid now : String) : Json :=
  .obj [
    ("bookingUid", .str booking_uid),
    ("cartUid", cart_uid),
    ("bookingCategoryId", .num booking_category_id),
    ("bookingModel", .num 0),
    ("newVersion", .obj [
      ("cartTransactionUid", cart_tx_uid),
      ("bookingMembers", .arr []),
      ("bookingVehicles", .arr []),
      ("bookingBoats", .arr []),
      ("bookingCapacityCategoryCounts", .arr [
        .obj [("capacityCategoryId", .num (-32768)),
              ("subCapacityCategoryId", .null),
              ("count", .num party_size)]]),
      ("rateCategoryId", .num (-32768)),
      ("resourceBlockerUids", .arr [.str blocker_uid]),
      ("resourceNonSpecificBlockerUids", .arr []),
      ("resourceZoneBlockerUids", .arr []),
      ("resourceZoneEntryBlockerUids", .arr []),
      ("startDate", .str start_date),
      ("endDate", .str end_date),
      ("releasePersonalInformation", .bool false),
      ("equipmentCategoryId", .null),
      ("subEquipmentCategoryId", .null),
      ("occupant", .obj [
        ("contact", .obj [
          ("email", .str ""),
          ("contactName", .str ""),
          ("phoneNumberCountryCode", .null),
          ("phoneNumber", .str "")]),
        ("address", .obj []),
        ("allowMarketing", .bool false),
        ("phoneNumbers", .obj []),
        ("preferredCultureName", .str preferred_culture_name),
        ("firstName", .str ""),
        ("lastName", .str "")]),
      ("requiresCheckout", .bool false),
      ("bookingStatus", .num 0),
      ("completedDate", .str now),
      ("arrivalComment", .str ""),
      ("entryPointResourceId", .null),
      ("exitPointResourceId", .null),
      ("bookingSurcharges", .arr []),
      ("consentToRelease", .bool false),
      ("equipmentDescription", .str ""),
      ("groupHoldUid", .str ""),
      ("organizationName", .str ""),
      ("passExpiryDate", .null),
      ("passNumber", .str ""),
      ("resourceLocationId", .num resource_location_id),
      ("checkInTime", .null),
      ("checkOutTime", .null),
      ("deferredPayment", .bool false)]),
    ("createTransactionUid", cart_tx_uid),
    ("currentVersion", .null),
    ("history", .arr []),
    ("drafts", .arr []),
    ("referenceNumberPostfix", .str "")]

/-- The resource-blocker dict literal (lines 247-263). -/
def mkBlocker (cart_uid cart_tx_uid : Json) (resource_id : Int)
    (resource_location_id : Int) (start_date end_date : String)
    (booking_uid blocker_uid now : String) : Json :=
  .obj [
    ("blockerType", .num 0),
    ("cartUid", cart_uid),
    ("resourceBlockerUid", .str blocker_uid),
    ("bookingUid", .str booking_uid),
    ("groupHoldUid", .str ""),
    ("isReservation", .bool true),
    ("newVersion", .obj [
      ("creationDate", .str now),
      ("cartTransactionUid", cart_tx_uid),
      ("startDate", .str start_date),
      ("endDate", .str end_date),
      ("resourceId", .num resource_id),
      ("resourceLocationId", .num resource_location_id),
      ("status", .num 0)])]

/-- Lines 265-275: mutate the copied cart — overwrite
`createTransactionUid` with `old or cart_tx_uid`, append the booking and the
blocker to their collections (`(old or []) + [new]`), and `setdefault` the
seven schema-required collections to `[]`. -/
def updateCart (cart_copy cart_tx_uid booking resource_blocker : Json) :
    Option Json :=
  (dictGetD cart_copy "createTransactionUid" .null).bind fun old_ctx =>
  (dictSet cart_copy "createTransactionUid" (pyOr old_ctx cart_tx_uid)).bind fun c0 =>
  (dictGetD c0 "bookings" .null).bind fun b0 =>
  (pyAppendOne b0 booking).bind fun bs =>
  (dictSet c0 "bookings" bs).bind fun c1 =>
  (dictGetD c1 "resourceBlockers" .null).bind fun r0 =>
  (pyAppendOne r0 resource_blocker).bind fun rs =>
  (dictSet c1 "resourceBlockers" rs).bind fun c2 =>
  (dictSetdefault c2 "resourceNonSpecificBlockers" (.arr [])).bind fun c3 =>
  (dictSetdefault c3 "resourceZoneBlockers" (.arr [])).bind fun c4 =>
  (dictSetdefault c4 "resourceZoneEntryBlockers" (.arr [])).bind fun c5 =>
  (dictSetdefault c5 "waitlistApplications" (.arr [])).bind fun c6 =>
  (dictSetdefault c6 "lineItems" (.arr [])).bind fun c7 =>
  (dictSetdefault c7 "sales" (.arr [])).bind fun c8 =>
  dictSetdefault c8 "shipments" (.arr [])

/-- The invalid-cart error message (line 179). -/
def invalidCartMsg : String :=
  "Cart missing cartUid or cartTransactionUid. Try refreshing cookies."

/-- Source `build_cart_commit_payload`, with the caller's `cart` argument also
returned. The body starts with `cart_copy = copy.deepcopy(cart)` (a value
copy) and every subsequent mutation targets `cart_copy`, so the pair's second
component — the value of the caller's `cart` after the call — is `cart`
itself. The result is `none` when the Python code would crash on an
ill-typed cart, `some (.error _)` for the invalid-cart `RuntimeError`, and
`some (.ok envelope)` on success. -/
def build_cart_commit_payload_run (cart : Json)
    (resource_id resource_location_id : Int) (start_date end_date : String)
    (party_size : Int) (booking_category_id : Int)
    (preferred_culture_name : String) (booking_uid blocker_uid now : String) :
    Option (Except String Json) × Json :=
  let cart_copy := cart
  let result : Option (Except String Json) :=
    (dictGetD cart_copy "cartUid" .null).bind fun cart_uid =>
      (resolveTx cart_copy).bind fun cart_tx_uid =>
        if !pyTruthy cart_uid || !pyTruthy cart_tx_uid then
          some (.error invalidCartMsg)
        else
          (updateCart cart_copy cart_tx_uid
            (mkBooking cart_uid cart_tx_uid booking_category_id party_size
              resource_location_id start_date end_date preferred_culture_name
              booking_uid blocker_uid now)
            (mkBlocker cart_uid cart_tx_uid resource_id resource_location_id
              start_date end_date booking_uid blocker_uid now)).bind fun c =>
            some (.ok (.obj [("cart", c)]))
  (result, cart)

/-- The function's return value alone. -/
def build_cart_commit_payload (cart : Json)
    (resource_id resource_location_id : Int) (start_date end_date : String)
    (party_size : Int) (booking_category_id : Int)
    (preferred_culture_name : String) (booking_uid blocker_uid now : String) :
    Option (Except String Json) :=
  (build_cart_commit_payload_run cart resource_id resource_location_id
    start_date end_date party_size booking_category_id preferred_culture_name
    booking_uid blocker_uid now).1

/-! ### Statement-level helpers and spec-side predicates -/

/-- The first pair attaining the minimal first component (later used to
characterize the head of the stable sort in `best_match`). -/
def firstMinP : List (Nat × AvailRes) → Option (Nat × AvailRes)
  | [] => none
  | x :: xs =>
    match firstMinP xs with
    | none => some x
    | some a => some (if x.1 ≤ a.1 then x else a)

/-- Did the builder return an envelope? -/
def isOkB : Option (Except String Json) → Bool
  | some (.ok _) => true
  | _ => false

/-- The returned envelope (or `null`). -/
def outEnv : Option (Except String Json) → Json
  | some (.ok e) => e
  | _ => .null

/-- The keys `build_cart_commit_payload` passes to `setdefault`. -/
def sdKeys7 : List String :=
  ["resourceNonSpecificBlockers", "resourceZoneBlockers",
   "resourceZoneEntryBlockers", "waitlistApplications", "lineItems",
   "sales", "shipments"]

/-- All cart keys `build_cart_commit_payload` writes. -/
def specialKeys : List String :=
  "createTransactionUid" :: "bookings" :: "resourceBlockers" :: sdKeys7

/-- The association list of the output cart on the success path: the three
assignments of lines 266-268 followed by the seven `setdefault`s of lines
269-275, given the list contents `bs`/`rs` of `(bookings or [])` and
`(resourceBlockers or [])`. -/
def finishKVs (kvs : List (String × Json)) (tx : Json) (bs rs : List Json)
    (bk bl : Json) : List (String × Json) :=
  sdKV (sdKV (sdKV (sdKV (sdKV (sdKV (sdKV
    (setKV (setKV (setKV kvs
      "createTransactionUid" (pyOr ((lookupKV kvs "createTransactionUid").getD .null) tx))
      "bookings" (.arr (bs ++ [bk])))
      "resourceBlockers" (.arr (rs ++ [bl])))
    "resourceNonSpecificBlockers" (.arr []))
    "resourceZoneBlockers" (.arr []))
    "resourceZoneEntryBlockers" (.arr []))
    "waitlistApplications" (.arr []))
    "lineItems" (.arr []))
    "sales" (.arr []))
    "shipments" (.arr [])

/-- Apply `f` to the value at key `k` of a dict (identity otherwise). -/
def Json.modifyKey (j : Json) (k : String) (f : Json → Json) : Json :=
  match j with
  | .obj kvs => .obj (modifyKV kvs k f)
  | _ => j

/-- Apply `f` to the last element of a list. -/
def modifyLast (f : Json → Json) : List Json → List Json
  | [] => []
  | [x] => [f x]
  | x :: xs => x :: modifyLast f xs

/-- Apply `f` to the last element of a JSON array (identity otherwise). -/
def Json.modifyArrLast (j : Json) (f : Json → Json) : Json :=
  match j with
  | .arr xs => .arr (modifyLast f xs)
  | _ => j

/-- Null out the per-call generated values inside the appended booking:
`bookingUid`, `newVersion.resourceBlockerUids` and the generation timestamp
`newVersion.completedDate`. -/
def maskBookingGen (b : Json) : Json :=
  (b.modifyKey "bookingUid" fun _ => .null).modifyKey "newVersion" fun nv =>
    (nv.modifyKey "resourceBlockerUids" fun _ => .null).modifyKey
      "completedDate" fun _ => .null

/-- Null out the per-call generated values inside the appended blocker:
`resourceBlockerUid`, `bookingUid` and the generation timestamp
`newVersion.creationDate`. -/
def maskBlockerGen (b : Json) : Json :=
  ((b.modifyKey "resourceBlockerUid" fun _ => .null).modifyKey
    "bookingUid" fun _ => .null).modifyKey "newVersion" fun nv =>
      nv.modifyKey "creationDate" fun _ => .null

/-- Null out, inside an envelope, exactly the generated identifiers and
generation timestamps of the appended booking/blocker pair. -/
def maskEnvGen (env : Json) : Json :=
  env.modifyKey "cart" fun c =>
    (c.modifyKey "bookings" fun bsv => bsv.modifyArrLast maskBookingGen).modifyKey
      "resourceBlockers" fun rsv => rsv.modifyArrLast maskBlockerGen

/-- Formalisation of claim C3's failure condition as worded: the cart "lacks
a cartUid" when the key is absent, and the transaction uid is sourced from
`newTransaction.cartTransactionUid` or else `createTransactionUid`, "the
first present winning"; the uid is unresolvable when the sourcing yields no
value. -/
def c3_claim_fails (cart : Json) : Bool :=
  let cartUidMissing := (cart.get? "cartUid").isNone
  let nested := (cart.get? "newTransaction").bind fun nt => nt.get? "cartTransactionUid"
  let resolved :=
    match nested with
    | some v => some v
    | none => cart.get? "createTransactionUid"
  cartUidMissing || resolved.isNone

/-- "Equal to the input collection (empty when absent) with exactly one new
element appended at the end". -/
def appendedOne (old new : Option Json) : Bool :=
  match old, new with
  | some (.arr xs), some (.arr ys) =>
      ys.length == xs.length + 1 && ys.take xs.length == xs
  | none, some (.arr ys) => ys.length == 1
  | _, _ => false

/-- Formalisation of claim C10's frame condition as worded, for input cart
`cin`, output cart `cout` and resolved transaction uid `tx`:
`createTransactionUid` is set to `tx` when absent or empty (unchanged
otherwise); `bookings`/`resourceBlockers` get exactly one new element
appended; the seven schema collections become `[]` only when absent; every
other key keeps its value and no other key is added. -/
def c10_claim_frame (cin cout : Json) (tx : Json) : Bool :=
  (match cin.get? "createTransactionUid" with
   | none => cout.get? "createTransactionUid" == some tx
   | some v =>
     if v == .str "" then cout.get? "createTransactionUid" == some tx
     else cout.get? "createTransactionUid" == some v) &&
  appendedOne (cin.get? "bookings") (cout.get? "bookings") &&
  appendedOne (cin.get? "resourceBlockers") (cout.get? "resourceBlockers") &&
  (sdKeys7.all fun k => cout.get? k == some ((cin.get? k).getD (.arr []))) &&
  ((cin.keys ++ cout.keys).all fun k =>
    specialKeys.contains k || cout.get? k == cin.get? k)

/-- Counterexample cart for C3: `cartUid` present and non-empty,
`newTransaction.cartTransactionUid` present but empty, no top-level
`createTransactionUid`. -/
def c3CexCart : Json :=
  .obj [("cartUid", .str "u"),
        ("newTransaction", .obj [("cartTransactionUid", .str "")])]

/-- Second counterexample cart for C3: like `c3CexCart` but with a truthy
top-level `createTransactionUid`; the code resolves the transaction uid to
the top-level value even though the nested field is present. -/
def c3CexCart2 : Json :=
  .obj [("cartUid", .str "u"),
        ("newTransaction", .obj [("cartTransactionUid", .str "")]),
        ("createTransactionUid", .str "t")]

/-- Counterexample cart for C9/C10: a minimal valid cart. -/
def c9CexCart : Json :=
  .obj [("cartUid", .str "u"), ("createTransactionUid", .str "t")]

/-- Counterexample cart for C10: valid (the nested transaction uid resolves)
but with a present, falsy, non-empty-string `createTransactionUid`. -/
def c10CexCart : Json :=
  .obj [("cartUid", .str "u"),
        ("newTransaction", .obj [("cartTransactionUid", .str "t")]),
        ("createTransactionUid", .bool false)]

/-! ## Theorems -/

/-! ### C4: availability decision rule -/

theorem mem_keys_of_mem_collect (entries : List (Int × List DailyEntry))
    (roofed : List Int) (code : Int) (rid : Int) :
    rid ∈ collect_available entries roofed code → rid ∈ entries.map Prod.fst := by
  induction entries with
  | nil => simp [collect_available]
  | cons e rest ih =>
    obtain ⟨r0, d0⟩ := e
    simp only [collect_available, List.map_cons]
    split
    · split
      · intro h
        rcases List.mem_cons.mp h with h | h
        · exact List.mem_cons.mpr (Or.inl h)
        · exact List.mem_cons.mpr (Or.inr (ih h))
      · intro h
        exact List.mem_cons.mpr (Or.inr (ih h))
    · intro h
      exact List.mem_cons.mpr (Or.inr (ih h))

theorem collect_available_mem_iff (entries : List (Int × List DailyEntry))
    (roofed : List Int) (code : Int) (rid : Int) (daily : List DailyEntry)
    (hnd : (entries.map Prod.fst).Nodup) (hmem : (rid, daily) ∈ entries) :
    rid ∈ collect_available entries roofed code ↔
      (roofed.contains rid ∧ daily ≠ [] ∧ ∀ d ∈ daily, d.availability = code) := by
  induction entries with
  | nil => cases hmem
  | cons e rest ih =>
    rcases List.mem_cons.mp hmem with h | h
    · subst h
      rw [List.map_cons, List.nodup_cons] at hnd
      have hnot : rid ∉ collect_available rest roofed code := fun hc =>
        hnd.1 (mem_keys_of_mem_collect rest roofed code rid hc)
      simp only [collect_available]
      split
      · rename_i hroof
        split
        · rename_i hcond
          simp only [Bool.and_eq_true, Bool.not_eq_true', List.all_eq_true,
            beq_iff_eq, List.isEmpty_eq_false_iff_exists_mem] at hcond
          constructor
          · intro _
            refine ⟨hroof, ?_, fun d hd => hcond.2 d hd⟩
            intro hnil
            rcases hcond.1 with ⟨d, hd⟩
            exact absurd hd (by simp [hnil])
          · intro _
            exact List.mem_cons_self rid _
        · rename_i hcond
          constructor
          · intro hc
            exact absurd hc hnot
          · intro ⟨_, hne, hall⟩
            exfalso
            apply hcond
            simp only [Bool.and_eq_true, Bool.not_eq_true', List.all_eq_true,
              beq_iff_eq]
            refine ⟨?_, fun d hd => hall d hd⟩
            simpa [List.isEmpty_iff] using hne
      · rename_i hroof
        constructor
        · intro hc
          exact absurd hc hnot
        · intro ⟨hr, _, _⟩
          exact absurd hr hroof
    · obtain ⟨r0, d0⟩ := e
      rw [List.map_cons, List.nodup_cons] at hnd
      have hkey : rid ∈ rest.map Prod.fst :=
        List.mem_map.mpr ⟨(rid, daily), h, rfl⟩
      have hne : rid ≠ r0 := fun he => hnd.1 (he ▸ hkey)
      have := ih hnd.2 h
      simp only [collect_available]
      split
      · split
        · rw [List.mem_cons]
          simpa [hne] using this
        · exact this
      · exact this

/-- C4: the availability evaluator includes a resource id in its output iff
the id is in the roofed set, its daily sequence is non-empty, and every
entry's status code equals the available code; in particular `[5,5,5]` with
available code 5 qualifies, `[5,5,3]` does not, and the empty sequence does
not. -/
theorem c4_availability_decision :
    (∀ (entries : List (Int × List DailyEntry)) (roofed : List Int)
        (code : Int) (rid : Int) (daily : List DailyEntry),
        (entries.map Prod.fst).Nodup → (rid, daily) ∈ entries →
        (rid ∈ collect_available entries roofed code ↔
          (roofed.contains rid ∧ daily ≠ [] ∧ ∀ d ∈ daily, d.availability = code)))
    ∧ collect_available [(1, [⟨5, none⟩, ⟨5, none⟩, ⟨5, none⟩])] [1] 5 = [1]
    ∧ collect_available [(1, [⟨5, none⟩, ⟨5, none⟩, ⟨3, none⟩])] [1] 5 = []
    ∧ collect_available [(1, [])] [1] 5 = [] :=
  ⟨fun entries roofed code rid daily hnd hmem =>
      collect_available_mem_iff entries roofed code rid daily hnd hmem,
    by decide, by decide, by decide⟩

theorem c4_availability_decision_witness :
    1 ∈ collect_available [(1, [⟨5, none⟩]), (2, [])] [1] 5 :=
  (c4_availability_decision.1 [(1, [⟨5, none⟩]), (2, [])] [1] 5 1 [⟨5, none⟩]
    (by decide) (by decide)).2 ⟨by decide, by decide, by decide⟩

/-! ### C8: category classifier -/

theorem build_roofed_category_ids_perm (C : List Category) (K : List String) :
    List.Perm (build_roofed_category_ids C K)
      ((C.filter fun c =>
        (K.map pyLower).any fun k => strContains (pyLower (c.name.getD "")) k).map
          (·.resourceCategoryId)).dedup := by
  simpa [build_roofed_category_ids] using
    List.perm_insertionSort (α := Int) (· ≤ ·) _

/-- C8: the classifier output is strictly sorted ascending with no duplicate
ids, is empty on an empty keyword list, and contains exactly the distinct
`resourceCategoryId`s of the categories whose (lowered, absent-as-empty)
name contains some lowered keyword as a substring. -/
theorem c8_category_classifier :
    (∀ (C : List Category) (K : List String),
        (build_roofed_category_ids C K).Sorted (· < ·))
    ∧ (∀ (C : List Category) (K : List String),
        (build_roofed_category_ids C K).Nodup)
    ∧ (∀ C : List Category, build_roofed_category_ids C [] = [])
    ∧ (∀ (C : List Category) (K : List String) (x : Int),
        x ∈ build_roofed_category_ids C K ↔
          ∃ c ∈ C,
            ((K.map pyLower).any fun k =>
              strContains (pyLower (c.name.getD "")) k) = true ∧
            c.resourceCategoryId = x) := by
  have hnd : ∀ (C : List Category) (K : List String),
      (build_roofed_category_ids C K).Nodup := fun C K =>
    (build_roofed_category_ids_perm C K).nodup_iff.mpr (List.nodup_dedup _)
  refine ⟨fun C K => ?_, hnd, fun C => ?_, fun C K x => ?_⟩
  · exact (List.sorted_insertionSort (· ≤ ·) _).lt_of_le (hnd C K)
  · simp [build_roofed_category_ids, List.filter_false]
  · rw [(build_roofed_category_ids_perm C K).mem_iff]
    simp [List.mem_dedup, List.mem_filter, List.mem_map]
    constructor
    · rintro ⟨c, ⟨hc, hk⟩, hx⟩
      exact ⟨c, hc, hk, hx⟩
    · rintro ⟨c, hc, hk, hx⟩
      exact ⟨c, ⟨hc, hk⟩, hx⟩

/-! ### C5: preference matching and best-match selection -/

theorem normalize_site_token_ne_empty {s ds : String}
    (h : normalize_site_token s = some ds) : ds ≠ "" := by
  simp only [normalize_site_token] at h
  split at h
  · cases h
  · rename_i hne
    cases h
    exact hne

theorem pref_token_hit_iff (name_norm : String) (name_digits : Option String)
    (p : String) :
    pref_token_hit name_norm name_digits p = true ↔
      (pyLower (pyStrip p) = name_norm ∨
        ∃ ds, normalize_site_token (pyLower (pyStrip p)) = some ds ∧
          name_digits = some ds) := by
  simp only [pref_token_hit]
  by_cases hbeq : (pyLower (pyStrip p) == name_norm) = true
  · rw [if_pos hbeq]
    simp only [true_iff]
    exact Or.inl (by simpa using hbeq)
  · rw [if_neg hbeq]
    have hne : ¬ pyLower (pyStrip p) = name_norm := by simpa using hbeq
    cases hpd : normalize_site_token (pyLower (pyStrip p)) with
    | none =>
      cases name_digits with
      | none => simp [hne]
      | some nd => simp [hne]
    | some pd =>
      cases name_digits with
      | none => simp [hne]
      | some nd =>
        simp only [beq_iff_eq, hne, false_or, Option.some.injEq]
        constructor
        · intro h
          exact ⟨pd, rfl, h.symm⟩
        · rintro ⟨ds, h1, h2⟩
          rw [← h1] at h2
          exact h2.symm

theorem matchFrom_eq_some_iff (nn : String) (nd : Option String) (k : Nat)
    (prefs : List String) (i : Nat) :
    matchFrom nn nd k prefs = some i ↔
      ∃ pre p post, prefs = pre ++ p :: post ∧ k + pre.length = i ∧
        pref_token_hit nn nd p = true ∧
        ∀ q ∈ pre, pref_token_hit nn nd q = false := by
  induction prefs generalizing k with
  | nil => simp [matchFrom]
  | cons hd tl ih =>
    simp only [matchFrom]
    split
    · rename_i hhit
      constructor
      · intro h
        refine ⟨[], hd, tl, rfl, by simpa using Option.some.inj h, hhit, by simp⟩
      · rintro ⟨pre, p, post, hdec, hlen, hhp, hpre⟩
        cases pre with
        | nil =>
          obtain ⟨h1, _⟩ := List.cons.inj hdec
          simp only [List.length_nil, Nat.add_zero] at hlen
          rw [hlen]
        | cons a pre' =>
          obtain ⟨h1, _⟩ := List.cons.inj hdec
          subst h1
          exact absurd hhit (by simp [hpre hd (by simp)])
    · rename_i hhit
      rw [ih (k + 1)]
      constructor
      · rintro ⟨pre, p, post, hdec, hlen, hhp, hpre⟩
        refine ⟨hd :: pre, p, post, by simp [hdec], by simp; omega, hhp, ?_⟩
        intro q hq
        rcases List.mem_cons.mp hq with h | h
        · subst h
          simpa using hhit
        · exact hpre q h
      · rintro ⟨pre, p, post, hdec, hlen, hhp, hpre⟩
        cases pre with
        | nil =>
          obtain ⟨h1, _⟩ := List.cons.inj hdec
          subst h1
          exact absurd hhp (by simpa using hhit)
        | cons a pre' =>
          obtain ⟨h1, h2⟩ := List.cons.inj hdec
          refine ⟨pre', p, post, h2, ?_, hhp, fun q hq => hpre q (by simp [hq])⟩
          subst h1
          simp only [List.length_cons] at hlen
          omega

theorem matchFrom_eq_none_iff (nn : String) (nd : Option String) (k : Nat)
    (prefs : List String) :
    matchFrom nn nd k prefs = none ↔
      ∀ q ∈ prefs, pref_token_hit nn nd q = false := by
  induction prefs generalizing k with
  | nil => simp [matchFrom]
  | cons hd tl ih =>
    simp only [matchFrom]
    split
    · rename_i hhit
      refine ⟨fun h => ?_, fun hall => ?_⟩
      · cases h
      · rw [hall hd (by simp)] at hhit
        cases hhit
    · rename_i hhit
      rw [ih (k + 1)]
      constructor
      · intro hall q hq
        rcases List.mem_cons.mp hq with h | h
        · subst h
          simpa using hhit
        · exact hall q h
      · intro hall q hq
        exact hall q (by simp [hq])

theorem firstMinP_cons_none (x : Nat × AvailRes) (xs : List (Nat × AvailRes))
    (hf : firstMinP xs = none) : firstMinP (x :: xs) = some x := by
  simp only [firstMinP]
  rw [hf]

theorem firstMinP_cons_some (x a : Nat × AvailRes) (xs : List (Nat × AvailRes))
    (hf : firstMinP xs = some a) :
    firstMinP (x :: xs) = some (if x.1 ≤ a.1 then x else a) := by
  simp only [firstMinP]
  rw [hf]

theorem firstMinP_eq_none_iff (l : List (Nat × AvailRes)) :
    firstMinP l = none ↔ l = [] := by
  cases l with
  | nil => simp [firstMinP]
  | cons x xs =>
    cases hf : firstMinP xs with
    | none => simp [firstMinP_cons_none x xs hf]
    | some a => simp [firstMinP_cons_some x a xs hf]

theorem insertionSort_head_firstMin (l : List (Nat × AvailRes)) :
    (List.insertionSort (fun a b => a.1 ≤ b.1) l).head? = firstMinP l := by
  induction l with
  | nil => rfl
  | cons x xs ih =>
    simp only [List.insertionSort]
    cases hs : List.insertionSort (fun a b => a.1 ≤ b.1) xs with
    | nil =>
      have hxs : xs = [] := by
        have hp := List.perm_insertionSort (fun a b : Nat × AvailRes => a.1 ≤ b.1) xs
        rw [hs] at hp
        exact hp.symm.eq_nil
      subst hxs
      simp [firstMinP, List.orderedInsert]
    | cons y t =>
      rw [hs] at ih
      have hf : firstMinP xs = some y := ih.symm
      rw [firstMinP_cons_some x y xs hf]
      by_cases hxy : x.1 ≤ y.1
      · simp [List.orderedInsert, hxy]
      · simp [List.orderedInsert, hxy]

theorem firstMinP_mem_min (l : List (Nat × AvailRes)) (p : Nat × AvailRes)
    (h : firstMinP l = some p) : p ∈ l ∧ ∀ q ∈ l, p.1 ≤ q.1 := by
  induction l generalizing p with
  | nil => cases h
  | cons x xs ih =>
    cases hf : firstMinP xs with
    | none =>
      rw [firstMinP_cons_none x xs hf] at h
      obtain rfl : x = p := Option.some.inj h
      have hxs := (firstMinP_eq_none_iff xs).mp hf
      subst hxs
      exact ⟨by simp, by simp⟩
    | some a =>
      rw [firstMinP_cons_some x a xs hf] at h
      obtain ⟨ha, hmin⟩ := ih a hf
      have hp : p = if x.1 ≤ a.1 then x else a := (Option.some.inj h).symm
      by_cases hle : x.1 ≤ a.1
      · rw [hp, if_pos hle]
        refine ⟨by simp, fun q hq => ?_⟩
        rcases List.mem_cons.mp hq with h' | h'
        · simp [h']
        · exact Nat.le_trans hle (hmin q h')
      · rw [hp, if_neg hle]
        refine ⟨by simp [ha], fun q hq => ?_⟩
        rcases List.mem_cons.mp hq with h' | h'
        · subst h'
          omega
        · exact hmin q h'

theorem firstMinP_eq_some_iff (l : List (Nat × AvailRes)) (p : Nat × AvailRes) :
    firstMinP l = some p ↔
      ∃ pre post, l = pre ++ p :: post ∧ (∀ q ∈ pre, p.1 < q.1) ∧
        ∀ q ∈ l, p.1 ≤ q.1 := by
  induction l generalizing p with
  | nil => simp [firstMinP]
  | cons x xs ih =>
    constructor
    · intro h
      have hmin := (firstMinP_mem_min _ _ h).2
      cases hf : firstMinP xs with
      | none =>
        rw [firstMinP_cons_none x xs hf] at h
        obtain rfl : x = p := Option.some.inj h
        exact ⟨[], xs, rfl, by simp, hmin⟩
      | some a =>
        rw [firstMinP_cons_some x a xs hf] at h
        obtain ⟨pre', post', hdec', hpre', _⟩ := (ih a).mp hf
        by_cases hle : x.1 ≤ a.1
        · rw [if_pos hle] at h
          obtain rfl : x = p := Option.some.inj h
          exact ⟨[], xs, rfl, by simp, hmin⟩
        · rw [if_neg hle] at h
          obtain rfl : a = p := Option.some.inj h
          refine ⟨x :: pre', post', by simp [hdec'], ?_, hmin⟩
          intro q hq
          rcases List.mem_cons.mp hq with h' | h'
          · subst h'
            omega
          · exact hpre' q h'
    · rintro ⟨pre, post, hdec, hpre, hmin⟩
      cases pre with
      | nil =>
        obtain ⟨h1, h2⟩ := List.cons.inj hdec
        rw [h1]
        rw [h1] at hmin
        cases hf : firstMinP xs with
        | none => exact firstMinP_cons_none p xs hf
        | some a =>
          have ha := (firstMinP_mem_min _ _ hf).1
          have hpa : p.1 ≤ a.1 := hmin a (by simp [ha])
          rw [firstMinP_cons_some p a xs hf, if_pos hpa]
      | cons b pre' =>
        obtain ⟨h1, h2⟩ := List.cons.inj hdec
        subst h1
        have hxp : p.1 < x.1 := hpre x (by simp)
        have hfx : firstMinP xs = some p := by
          rw [ih p]
          refine ⟨pre', post, h2, fun q hq => hpre q (by simp [hq]), ?_⟩
          intro q hq
          exact hmin q (by simp [hq])
        rw [firstMinP_cons_some x p xs hfx, if_neg (by omega)]

theorem rankedPairs_nil (available : List AvailRes) :
    rankedPairs available [] = [] := by
  induction available with
  | nil => rfl
  | cons a rest ih => simp [rankedPairs, match_preference, matchFrom] at ih ⊢

/-- C5: `match_preference` returns the index of the first matching token
(matching = stripped case-insensitive equality, or equality of the non-empty
digit extractions), `none` otherwise; across a set of available resources
the selected best match is the first-encountered resource attaining the
lowest preference index; preferences `["472", "Birch Cabin"]` against
resources `"Site 472"`, `"Birch Cabin"` select `"Site 472"`. -/
theorem c5_preference_matching :
    (∀ resource_name p : String,
      pref_token_hit (pyLower (pyStrip resource_name))
          (normalize_site_token resource_name) p = true ↔
        (pyLower (pyStrip p) = pyLower (pyStrip resource_name) ∨
          ∃ ds, ds ≠ "" ∧
            normalize_site_token (pyLower (pyStrip p)) = some ds ∧
            normalize_site_token resource_name = some ds))
    ∧ (∀ (resource_name : String) (preferred : List String) (i : Nat),
      match_preference resource_name preferred = some i ↔
        ∃ pre p post, preferred = pre ++ p :: post ∧ pre.length = i ∧
          pref_token_hit (pyLower (pyStrip resource_name))
            (normalize_site_token resource_name) p = true ∧
          ∀ q ∈ pre, pref_token_hit (pyLower (pyStrip resource_name))
            (normalize_site_token resource_name) q = false)
    ∧ (∀ (resource_name : String) (preferred : List String),
      match_preference resource_name preferred = none ↔
        ∀ q ∈ preferred, pref_token_hit (pyLower (pyStrip resource_name))
          (normalize_site_token resource_name) q = false)
    ∧ (∀ (available : List AvailRes) (preferred : List String) (m : AvailRes),
      best_match available preferred = some m ↔
        ∃ i pre post,
          rankedPairs available preferred = pre ++ (i, m) :: post ∧
          (∀ q ∈ pre, i < q.1) ∧
          ∀ q ∈ rankedPairs available preferred, i ≤ q.1)
    ∧ best_match [⟨1, "Site 472", 7⟩, ⟨2, "Birch Cabin", 7⟩]
        ["472", "Birch Cabin"] = some ⟨1, "Site 472", 7⟩ := by
  refine ⟨?_, ?_, ?_, ?_, by decide⟩
  · intro resource_name p
    rw [pref_token_hit_iff]
    constructor
    · rintro (h | ⟨ds, hpd, hnd⟩)
      · exact Or.inl h
      · exact Or.inr ⟨ds, normalize_site_token_ne_empty hpd, hpd, hnd⟩
    · rintro (h | ⟨ds, _, hpd, hnd⟩)
      · exact Or.inl h
      · exact Or.inr ⟨ds, hpd, hnd⟩
  · intro resource_name preferred i
    rw [match_preference, matchFrom_eq_some_iff]
    constructor
    · rintro ⟨pre, p, post, h1, h2, h3, h4⟩
      exact ⟨pre, p, post, h1, by simpa using h2, h3, h4⟩
    · rintro ⟨pre, p, post, h1, h2, h3, h4⟩
      exact ⟨pre, p, post, h1, by simpa using h2, h3, h4⟩
  · intro resource_name preferred
    rw [match_preference, matchFrom_eq_none_iff]
  · intro available preferred m
    unfold best_match
    split
    · rename_i hemp
      rw [List.isEmpty_iff] at hemp
      subst hemp
      simp [rankedPairs_nil]
    · constructor
      · intro h
        split at h
        · cases h
        · rename_i x t hs
          cases h
          have hhead : (List.insertionSort (fun a b => a.1 ≤ b.1)
              (rankedPairs available preferred)).head? = some x := by
            rw [hs]; rfl
          rw [insertionSort_head_firstMin] at hhead
          obtain ⟨pre, post, hdec, hpre, hmin⟩ :=
            (firstMinP_eq_some_iff _ _).mp hhead
          exact ⟨x.1, pre, post, by rwa [show (x.1, x.2) = x from rfl], hpre, hmin⟩
      · rintro ⟨i, pre, post, hdec, hpre, hmin⟩
        have hf : firstMinP (rankedPairs available preferred) = some (i, m) :=
          (firstMinP_eq_some_iff _ _).mpr ⟨pre, post, hdec, hpre, hmin⟩
        rw [← insertionSort_head_firstMin] at hf
        split
        · rename_i hs
          rw [hs] at hf
          cases hf
        · rename_i x t hs
          rw [hs] at hf
          cases hf
          rfl

theorem c5_preference_matching_witness :
    match_preference "Site 472" ["472", "Birch Cabin"] = some 0 :=
  (c5_preference_matching.2.1 "Site 472" ["472", "Birch Cabin"] 0).mpr
    ⟨[], "472", ["Birch Cabin"], rfl, rfl, by decide, by simp⟩

/-! ### C6/C7: location resolution -/

theorem filter_head_eq_find (p : Location → Bool) (l : List Location) :
    (l.filter p).head? = l.find? p := by
  induction l with
  | nil => rfl
  | cons x xs ih =>
    by_cases h : p x
    · simp [List.filter_cons, h]
    · simp [List.filter_cons, h, ih]

/-- C6: a query whose normalization equals some location's normalized display
name resolves to the first such location; with no exact match and exactly
one substring match, that location is returned. -/
theorem c6_location_resolution :
    (∀ (locations : List Location) (query : String) (l : Location),
      locations.find? (fun l' => normalize l'.fullName == normalize query)
          = some l →
      pick_location locations query = .ok l)
    ∧ (∀ (locations : List Location) (query : String) (l : Location),
      (∀ l' ∈ locations, normalize l'.fullName ≠ normalize query) →
      locations.filter (fun l' =>
        strContains (normalize l'.fullName) (normalize query)) = [l] →
      pick_location locations query = .ok l) := by
  constructor
  · intro locations query l hfind
    have hhead : (locations.filter fun l' =>
        normalize l'.fullName == normalize query).head? = some l := by
      rw [filter_head_eq_find]
      exact hfind
    simp only [pick_location]
    cases hex : locations.filter fun l' =>
        normalize l'.fullName == normalize query with
    | nil =>
      rw [hex] at hhead
      cases hhead
    | cons a t =>
      rw [hex] at hhead
      simp only [List.head?_cons, Option.some.injEq] at hhead
      rw [hhead]
  · intro locations query l hnoexact hsub
    have hex : (locations.filter fun l' =>
        normalize l'.fullName == normalize query) = [] := by
      apply List.filter_eq_nil_iff.mpr
      intro a ha
      simpa using hnoexact a ha
    simp only [pick_location]
    rw [hex, hsub]

/-- C7: with no exact normalized-name match, zero substring matches fail with
the not-found error naming the query, two or more fail with the ambiguous
error listing at most ten candidate names, and the call succeeds in no other
case. -/
theorem c7_location_failures :
    ∀ (locations : List Location) (query : String),
      (∀ l' ∈ locations, normalize l'.fullName ≠ normalize query) →
      ((locations.filter (fun l' =>
          strContains (normalize l'.fullName) (normalize query)) = [] →
        pick_location locations query = .error (.notFound query))
      ∧ (2 ≤ (locations.filter (fun l' =>
          strContains (normalize l'.fullName) (normalize query))).length →
        pick_location locations query = .error (.ambiguous query
          (((locations.filter (fun l' =>
            strContains (normalize l'.fullName) (normalize query))).take 10).map
              (·.fullName))) ∧
        (((locations.filter (fun l' =>
            strContains (normalize l'.fullName) (normalize query))).take 10).map
              (·.fullName)).length ≤ 10)
      ∧ (∀ l, pick_location locations query = .ok l →
          locations.filter (fun l' =>
            strContains (normalize l'.fullName) (normalize query)) = [l])) := by
  intro locations query hnoexact
  have hex : (locations.filter fun l' =>
      normalize l'.fullName == normalize query) = [] := by
    apply List.filter_eq_nil_iff.mpr
    intro a ha
    simpa using hnoexact a ha
  refine ⟨fun hnil => ?_, fun hlen => ⟨?_, ?_⟩, fun l hok => ?_⟩
  · simp only [pick_location]
    rw [hex, hnil]
  · simp only [pick_location]
    rw [hex]
    cases hs : locations.filter fun l' =>
        strContains (normalize l'.fullName) (normalize query) with
    | nil =>
      rw [hs] at hlen
      simp at hlen
    | cons a s =>
      cases s with
      | nil =>
        rw [hs] at hlen
        simp at hlen
      | cons b t => rfl
  · calc (((locations.filter fun l' =>
        strContains (normalize l'.fullName) (normalize query)).take 10).map
          (·.fullName)).length
        = ((locations.filter fun l' =>
            strContains (normalize l'.fullName) (normalize query)).take 10).length := by
          rw [List.length_map]
      _ ≤ 10 := by
          exact List.length_take_le 10 _
  · simp only [pick_location] at hok
    rw [hex] at hok
    cases hs : locations.filter fun l' =>
        strContains (normalize l'.fullName) (normalize query) with
    | nil =>
      rw [hs] at hok
      cases hok
    | cons a s =>
      cases s with
      | nil =>
        rw [hs] at hok
        simp only [Except.ok.injEq] at hok
        rw [hok]
      | cons b t =>
        rw [hs] at hok
        cases hok

theorem c6_location_resolution_witness :
    pick_location [⟨1, "Pinery Provincial Park"⟩, ⟨2, "Killbear Provincial Park"⟩]
      "Pinery  provincial park" = .ok ⟨1, "Pinery Provincial Park"⟩ :=
  c6_location_resolution.1
    [⟨1, "Pinery Provincial Park"⟩, ⟨2, "Killbear Provincial Park"⟩]
    "Pinery  provincial park" ⟨1, "Pinery Provincial Park"⟩ (by decide)

theorem c7_location_failures_witness :
    pick_location [⟨1, "Pinery Provincial Park"⟩, ⟨2, "Killbear Provincial Park"⟩]
        "Park"
      = .error (.ambiguous "Park"
          ["Pinery Provincial Park", "Killbear Provincial Park"])
    ∧ pick_location [⟨1, "Pinery Provincial Park"⟩, ⟨2, "Killbear Provincial Park"⟩]
        "Algonquin" = .error (.notFound "Algonquin") :=
  ⟨((c7_location_failures
      [⟨1, "Pinery Provincial Park"⟩, ⟨2, "Killbear Provincial Park"⟩]
      "Park" (by decide)).2.1 (by decide)).1.trans (by decide),
    (c7_location_failures
      [⟨1, "Pinery Provincial Park"⟩, ⟨2, "Killbear Provincial Park"⟩]
      "Algonquin" (by decide)).1 (by decide)⟩

/-! ### Association-list lemmas -/

theorem lookupKV_setKV (kvs : List (String × Json)) (k : String) (v : Json)
    (k' : String) :
    lookupKV (setKV kvs k v) k' = if k' = k then some v else lookupKV kvs k' := by
  induction kvs with
  | nil =>
    by_cases h : k' = k
    · subst h
      simp [setKV, lookupKV]
    · have h' : ¬ k = k' := fun hh => h hh.symm
      simp [setKV, lookupKV, h, h']
  | cons a rest ih =>
    obtain ⟨ak, av⟩ := a
    by_cases hak : ak = k
    · subst hak
      by_cases h : k' = ak
      · subst h
        simp [setKV, lookupKV]
      · have h' : ¬ ak = k' := fun hh => h hh.symm
        simp [setKV, lookupKV, h, h']
    · by_cases h : k' = k
      · subst h
        simp [setKV, lookupKV, hak, ih]
      · by_cases h3 : ak = k'
        · subst h3
          simp [setKV, lookupKV, hak, h, ih]
        · simp [setKV, lookupKV, hak, h, h3, ih]

theorem lookupKV_append_singleton (kvs : List (String × Json)) (k : String)
    (v : Json) (k' : String) :
    lookupKV (kvs ++ [(k, v)]) k' =
      match lookupKV kvs k' with
      | some w => some w
      | none => if k = k' then some v else none := by
  induction kvs with
  | nil => simp [lookupKV]
  | cons a rest ih =>
    obtain ⟨ak, av⟩ := a
    by_cases h : ak = k' <;> simp [lookupKV, h, ih]

theorem lookupKV_sdKV (kvs : List (String × Json)) (k : String) (v : Json)
    (k' : String) :
    lookupKV (sdKV kvs k v) k' =
      if k' = k then some ((lookupKV kvs k).getD v) else lookupKV kvs k' := by
  unfold sdKV
  cases hl : lookupKV kvs k with
  | some w =>
    by_cases h : k' = k
    · subst h
      simp [hl]
    · simp [h]
  | none =>
    rw [lookupKV_append_singleton]
    by_cases h : k' = k
    · subst h
      simp [hl]
    · have h' : ¬ k = k' := fun hh => h hh.symm
      cases hw : lookupKV kvs k' with
      | some w => simp [hw, h]
      | none => simp [hw, h, h']

theorem lookupKV_modifyKV (kvs : List (String × Json)) (k : String)
    (f : Json → Json) (k' : String) :
    lookupKV (modifyKV kvs k f) k' =
      if k' = k then (lookupKV kvs k).map f else lookupKV kvs k' := by
  induction kvs with
  | nil =>
    by_cases h : k' = k <;> simp [modifyKV, lookupKV, h]
  | cons a rest ih =>
    obtain ⟨ak, av⟩ := a
    by_cases hak : ak = k
    · subst hak
      by_cases h : k' = ak
      · subst h
        simp [modifyKV, lookupKV]
      · have h' : ¬ ak = k' := fun hh => h hh.symm
        simp [modifyKV, lookupKV, h, h']
    · by_cases h : k' = k
      · subst h
        simp [modifyKV, lookupKV, hak, ih]
      · by_cases h3 : ak = k'
        · subst h3
          simp [modifyKV, lookupKV, hak, h, ih]
        · simp [modifyKV, lookupKV, hak, h, h3, ih]

theorem modifyKV_setKV_same (kvs : List (String × Json)) (k : String)
    (v : Json) (f : Json → Json) :
    modifyKV (setKV kvs k v) k f = setKV kvs k (f v) := by
  induction kvs with
  | nil => simp [setKV, modifyKV]
  | cons a rest ih =>
    obtain ⟨ak, av⟩ := a
    by_cases hak : ak = k <;> simp [setKV, modifyKV, hak, ih]

theorem modifyKV_setKV_ne (kvs : List (String × Json)) (k : String) (v : Json)
    (k' : String) (f : Json → Json) (h : k' ≠ k) :
    modifyKV (setKV kvs k v) k' f = setKV (modifyKV kvs k' f) k v := by
  have h' : ¬ k = k' := fun hh => h hh.symm
  induction kvs with
  | nil => simp [setKV, modifyKV, h']
  | cons a rest ih =>
    obtain ⟨ak, av⟩ := a
    by_cases hak : ak = k
    · subst hak
      have h2 : ¬ ak = k' := fun hh => h hh.symm
      simp [setKV, modifyKV, h2]
    · by_cases h2 : ak = k'
      · subst h2
        simp [setKV, modifyKV, hak, ih]
      · simp [setKV, modifyKV, hak, h2, ih]

theorem modifyKV_append_singleton (kvs : List (String × Json)) (k : String)
    (v : Json) (k' : String) (f : Json → Json) (h : k ≠ k') :
    modifyKV (kvs ++ [(k, v)]) k' f = modifyKV kvs k' f ++ [(k, v)] := by
  induction kvs with
  | nil => simp [modifyKV, h]
  | cons a rest ih =>
    obtain ⟨ak, av⟩ := a
    by_cases hak : ak = k' <;> simp [modifyKV, hak, ih]

theorem modifyKV_sdKV_ne (kvs : List (String × Json)) (k : String) (v : Json)
    (k' : String) (f : Json → Json) (h : k' ≠ k) :
    modifyKV (sdKV kvs k v) k' f = sdKV (modifyKV kvs k' f) k v := by
  unfold sdKV
  rw [lookupKV_modifyKV, if_neg fun hh : k = k' => h hh.symm]
  cases hl : lookupKV kvs k with
  | some w => rfl
  | none => exact modifyKV_append_singleton kvs k v k' f fun hh => h hh.symm

theorem modifyLast_append (f : Json → Json) (xs : List Json) (x : Json) :
    modifyLast f (xs ++ [x]) = xs ++ [f x] := by
  induction xs with
  | nil => rfl
  | cons b bs ih =>
    cases bs with
    | nil => rfl
    | cons c cs =>
      show b :: modifyLast f ((c :: cs) ++ [x]) = _
      rw [ih]
      rfl

/-! ### Builder elimination lemmas -/

theorem build_eq (cart : Json) (ri rli : Int) (sd ed : String) (ps bc : Int)
    (pl b r n : String) :
    build_cart_commit_payload cart ri rli sd ed ps bc pl b r n =
      (dictGetD cart "cartUid" .null).bind fun cart_uid =>
        (resolveTx cart).bind fun cart_tx_uid =>
          if !pyTruthy cart_uid || !pyTruthy cart_tx_uid then
            some (.error invalidCartMsg)
          else
            (updateCart cart cart_tx_uid
              (mkBooking cart_uid cart_tx_uid bc ps rli sd ed pl b r n)
              (mkBlocker cart_uid cart_tx_uid ri rli sd ed b r n)).bind fun c =>
              some (.ok (.obj [("cart", c)])) := rfl

theorem updateCart_obj_some (kvs : List (String × Json)) (tx bk bl c : Json)
    (h : updateCart (.obj kvs) tx bk bl = some c) :
    ∃ bs rs, pyOrList ((lookupKV kvs "bookings").getD .null) = some bs ∧
      pyOrList ((lookupKV kvs "resourceBlockers").getD .null) = some rs ∧
      c = .obj (finishKVs kvs tx bs rs bk bl) := by
  unfold updateCart at h
  simp only [dictGetD, dictSet, dictSetdefault, pyAppendOne, Option.some_bind',
    lookupKV_setKV] at h
  rw [if_neg (by decide : ¬ ("bookings" : String) = "createTransactionUid")] at h
  cases hbs : pyOrList ((lookupKV kvs "bookings").getD Json.null) with
  | none =>
    rw [hbs] at h
    cases h
  | some bs =>
    rw [hbs] at h
    simp only [Option.map_some', Option.some_bind', lookupKV_setKV] at h
    rw [if_neg (by decide : ¬ ("resourceBlockers" : String) = "bookings"),
      if_neg (by decide : ¬ ("resourceBlockers" : String) = "createTransactionUid")] at h
    cases hrs : pyOrList ((lookupKV kvs "resourceBlockers").getD Json.null) with
    | none =>
      rw [hrs] at h
      cases h
    | some rs =>
      rw [hrs] at h
      simp only [Option.map_some', Option.some_bind', Option.some.injEq] at h
      exact ⟨bs, rs, rfl, rfl, h.symm⟩

theorem build_ok_elim (cart : Json) (ri rli : Int) (sd ed : String)
    (ps bc : Int) (pl b r n : String) (env : Json)
    (h : build_cart_commit_payload cart ri rli sd ed ps bc pl b r n
      = some (.ok env)) :
    ∃ kvs cu tx bs rs,
      cart = .obj kvs ∧
      dictGetD cart "cartUid" .null = some cu ∧
      resolveTx cart = some tx ∧
      pyTruthy cu = true ∧ pyTruthy tx = true ∧
      pyOrList ((lookupKV kvs "bookings").getD .null) = some bs ∧
      pyOrList ((lookupKV kvs "resourceBlockers").getD .null) = some rs ∧
      env = .obj [("cart", .obj (finishKVs kvs tx bs rs
        (mkBooking cu tx bc ps rli sd ed pl b r n)
        (mkBlocker cu tx ri rli sd ed b r n)))] := by
  rw [build_eq] at h
  cases hcu : dictGetD cart "cartUid" .null with
  | none =>
    rw [hcu] at h
    cases h
  | some cu =>
    rw [hcu] at h
    simp only [Option.some_bind'] at h
    cases htx : resolveTx cart with
    | none =>
      rw [htx] at h
      cases h
    | some tx =>
      rw [htx] at h
      simp only [Option.some_bind'] at h
      by_cases hcond : (!pyTruthy cu || !pyTruthy tx) = true
      · rw [if_pos hcond] at h
        cases h
      · rw [if_neg hcond] at h
        simp only [Bool.or_eq_true, Bool.not_eq_true'] at hcond
        push_neg at hcond
        obtain ⟨kvs, hkvs⟩ : ∃ kvs, cart = .obj kvs := by
          cases cart <;> simp [dictGetD] at hcu
          exact ⟨_, rfl⟩
        subst hkvs
        cases hup : updateCart (.obj kvs) tx
            (mkBooking cu tx bc ps rli sd ed pl b r n)
            (mkBlocker cu tx ri rli sd ed b r n) with
        | none =>
          rw [hup] at h
          cases h
        | some c =>
          rw [hup] at h
          simp only [Option.some_bind', Option.some.injEq, Except.ok.injEq] at h
          obtain ⟨bs, rs, hbs, hrs, hc⟩ := updateCart_obj_some kvs tx _ _ c hup
          subst hc
          apply Exists.intro kvs
          apply Exists.intro cu
          apply Exists.intro tx
          apply Exists.intro bs
          apply Exists.intro rs
          refine ⟨rfl, rfl, rfl, ?_, ?_, hbs, hrs, h.symm⟩
          · simpa using hcond.1
          · simpa using hcond.2

/-! ### C2: the caller's cart is never mutated -/

/-- C2: for every cart (valid or not) and all arguments, the caller's `cart`
after `build_cart_commit_payload` returns (an envelope, the invalid-cart
error, or a crash) is the value it had before the call: the body deep-copies
the cart first and mutates only the copy. The returned envelope is built
from the copy, so it shares no structure with the caller's value in this
value-semantics model. -/
theorem c2_caller_cart_preserved (cart : Json) (ri rli : Int)
    (sd ed : String) (ps bc : Int) (pl b r n : String) :
    (build_cart_commit_payload_run cart ri rli sd ed ps bc pl b r n).2
      = cart := rfl

/-! ### C1: envelope cross-identifier consistency -/

/-- C1: whenever `build_cart_commit_payload` accepts a cart, the envelope's
cart carries exactly one new booking and one new resource blocker (appended
to the input collections), the booking's `newVersion.resourceBlockerUids` is
the one-element list holding the blocker's own `resourceBlockerUid`, the
blocker's `bookingUid` equals the booking's `bookingUid`, and both
`newVersion.cartTransactionUid` fields equal the cart's resolved transaction
uid. -/
theorem c1_payload_cross_refs (cart : Json) (ri rli : Int) (sd ed : String)
    (ps bc : Int) (pl b r n : String) (env : Json)
    (hb : build_cart_commit_payload cart ri rli sd ed ps bc pl b r n
      = some (.ok env)) :
    ∃ tx bs rs bk bl,
      resolveTx cart = some tx ∧
      pyOrList ((cart.get? "bookings").getD .null) = some bs ∧
      pyOrList ((cart.get? "resourceBlockers").getD .null) = some rs ∧
      env.getIn ["cart", "bookings"] = some (.arr (bs ++ [bk])) ∧
      env.getIn ["cart", "resourceBlockers"] = some (.arr (rs ++ [bl])) ∧
      (∃ u : String,
        bk.getIn ["newVersion", "resourceBlockerUids"] = some (.arr [.str u]) ∧
        bl.get? "resourceBlockerUid" = some (.str u)) ∧
      (∃ bu : String,
        bk.get? "bookingUid" = some (.str bu) ∧
        bl.get? "bookingUid" = some (.str bu)) ∧
      bk.getIn ["newVersion", "cartTransactionUid"] = some tx ∧
      bl.getIn ["newVersion", "cartTransactionUid"] = some tx := by
  obtain ⟨kvs, cu, tx, bs, rs, hkvs, hcu, htx, hcut, htxt, hbs, hrs, henv⟩ :=
    build_ok_elim cart ri rli sd ed ps bc pl b r n env hb
  subst hkvs
  subst henv
  refine ⟨tx, bs, rs, mkBooking cu tx bc ps rli sd ed pl b r n,
    mkBlocker cu tx ri rli sd ed b r n, htx, ?_, ?_, ?_, ?_,
    ⟨r, ?_, ?_⟩, ⟨b, ?_, ?_⟩, ?_, ?_⟩
  · simpa [Json.get?] using hbs
  · simpa [Json.get?] using hrs
  · simp [Json.getIn, Json.get?, lookupKV, finishKVs, lookupKV_sdKV,
      lookupKV_setKV]
  · simp [Json.getIn, Json.get?, lookupKV, finishKVs, lookupKV_sdKV,
      lookupKV_setKV]
  · simp [Json.getIn, Json.get?, mkBooking, lookupKV]
  · simp [Json.get?, mkBlocker, lookupKV]
  · simp [Json.get?, mkBooking, lookupKV]
  · simp [Json.get?, mkBlocker, lookupKV]
  · simp [Json.getIn, Json.get?, mkBooking, lookupKV]
  · simp [Json.getIn, Json.get?, mkBlocker, lookupKV]

theorem c1_payload_cross_refs_witness :
    ∃ env, build_cart_commit_payload c9CexCart 100 7 "2026-07-15" "2026-07-17"
        2 2 "en-CA" "B" "R" "2026-01-01T00:00:00Z" = some (.ok env) ∧
      ∃ tx bs rs bk bl,
        resolveTx c9CexCart = some tx ∧
        pyOrList ((c9CexCart.get? "bookings").getD .null) = some bs ∧
        pyOrList ((c9CexCart.get? "resourceBlockers").getD .null) = some rs ∧
        env.getIn ["cart", "bookings"] = some (.arr (bs ++ [bk])) ∧
        env.getIn ["cart", "resourceBlockers"] = some (.arr (rs ++ [bl])) ∧
        (∃ u : String,
          bk.getIn ["newVersion", "resourceBlockerUids"] = some (.arr [.str u]) ∧
          bl.get? "resourceBlockerUid" = some (.str u)) ∧
        (∃ bu : String,
          bk.get? "bookingUid" = some (.str bu) ∧
          bl.get? "bookingUid" = some (.str bu)) ∧
        bk.getIn ["newVersion", "cartTransactionUid"] = some tx ∧
        bl.getIn ["newVersion", "cartTransactionUid"] = some tx :=
  ⟨outEnv (build_cart_commit_payload c9CexCart 100 7 "2026-07-15" "2026-07-17"
      2 2 "en-CA" "B" "R" "2026-01-01T00:00:00Z"), by decide,
    c1_payload_cross_refs c9CexCart 100 7 "2026-07-15" "2026-07-17"
      2 2 "en-CA" "B" "R" "2026-01-01T00:00:00Z" _ (by decide)⟩

/-! ### C3: the invalid-cart error condition -/

theorem build_error_elim (cart : Json) (ri rli : Int) (sd ed : String)
    (ps bc : Int) (pl b r n : String) (msg : String)
    (h : build_cart_commit_payload cart ri rli sd ed ps bc pl b r n
      = some (.error msg)) :
    msg = invalidCartMsg ∧
      ∃ cu tx, dictGetD cart "cartUid" .null = some cu ∧
        resolveTx cart = some tx ∧
        (pyTruthy cu = false ∨ pyTruthy tx = false) := by
  rw [build_eq] at h
  cases hcu : dictGetD cart "cartUid" .null with
  | none =>
    rw [hcu] at h
    cases h
  | some cu =>
    rw [hcu] at h
    simp only [Option.some_bind'] at h
    cases htx : resolveTx cart with
    | none =>
      rw [htx] at h
      cases h
    | some tx =>
      rw [htx] at h
      simp only [Option.some_bind'] at h
      by_cases hcond : (!pyTruthy cu || !pyTruthy tx) = true
      · rw [if_pos hcond] at h
        simp only [Option.some.injEq, Except.error.injEq] at h
        refine ⟨h.symm, cu, tx, rfl, rfl, ?_⟩
        simpa only [Bool.or_eq_true, Bool.not_eq_true'] using hcond
      · rw [if_neg hcond] at h
        cases hup : updateCart cart tx
            (mkBooking cu tx bc ps rli sd ed pl b r n)
            (mkBlocker cu tx ri rli sd ed b r n) with
        | none =>
          rw [hup] at h
          cases h
        | some c =>
          rw [hup] at h
          simp only [Option.some_bind', Option.some.injEq] at h
          cases h

/-- C3 (amended): the builder raises the invalid-cart error exactly when the
identifier accesses succeed (the cart is a dict whose `newTransaction` value,
if any, is a dict) and either the cart's `cartUid` or the resolved
transaction uid — nested `newTransaction.cartTransactionUid` if truthy,
else top-level `createTransactionUid` — is falsy (absent, empty, null,
false or zero); every raised error is the invalid-cart error, so no payload
is produced then. -/
theorem c3_invalid_cart_iff (cart : Json) (ri rli : Int) (sd ed : String)
    (ps bc : Int) (pl b r n : String) :
    ((∃ msg, build_cart_commit_payload cart ri rli sd ed ps bc pl b r n
        = some (.error msg)) ↔
      (∃ cu tx, dictGetD cart "cartUid" .null = some cu ∧
        resolveTx cart = some tx ∧
        (pyTruthy cu = false ∨ pyTruthy tx = false)))
    ∧ ∀ msg, build_cart_commit_payload cart ri rli sd ed ps bc pl b r n
        = some (.error msg) → msg = invalidCartMsg := by
  constructor
  · constructor
    · rintro ⟨msg, hmsg⟩
      exact (build_error_elim cart ri rli sd ed ps bc pl b r n msg hmsg).2
    · rintro ⟨cu, tx, hcu, htx, hfalsy⟩
      refine ⟨invalidCartMsg, ?_⟩
      rw [build_eq, hcu, htx]
      simp only [Option.some_bind']
      rw [if_pos ?hc]
      case hc =>
        simp only [Bool.or_eq_true, Bool.not_eq_true']
        exact hfalsy
  · intro msg hmsg
    exact (build_error_elim cart ri rli sd ed ps bc pl b r n msg hmsg).1

theorem c3_invalid_cart_iff_witness :
    build_cart_commit_payload (.obj [("cartUid", .str "")]) 100 7
        "2026-07-15" "2026-07-17" 2 2 "en-CA" "B" "R" "N"
      = some (.error invalidCartMsg)
    ∧ invalidCartMsg = invalidCartMsg :=
  ⟨by decide,
    (c3_invalid_cart_iff (.obj [("cartUid", .str "")]) 100 7
      "2026-07-15" "2026-07-17" 2 2 "en-CA" "B" "R" "N").2 invalidCartMsg
      (by decide)⟩

/-- C3's counterexample as the claim is worded: this cart has a present,
non-empty `cartUid` and a present nested `newTransaction.cartTransactionUid`
(so, sourcing "the first present winning", the claim deems it resolvable and
predicts acceptance), yet the code raises the invalid-cart error because the
nested value is the empty string, which is falsy and also blocks the
fallback from being reached as a source of truth. -/
theorem c3_counterexample :
    build_cart_commit_payload c3CexCart 100 7 "2026-07-15" "2026-07-17" 2 2
        "en-CA" "B" "R" "N" = some (.error invalidCartMsg)
    ∧ c3_claim_fails c3CexCart = false
    ∧ isOkB (build_cart_commit_payload c3CexCart2 100 7 "2026-07-15"
        "2026-07-17" 2 2 "en-CA" "B" "R" "N") = true
    ∧ resolveTx c3CexCart2 = some (.str "t") :=
  ⟨by decide, by decide, by decide, by decide⟩

/-! ### C9: repeated calls differ only in generated values -/

theorem maskBookingGen_mkBooking (cu tx : Json) (bc ps rli : Int)
    (sd ed pl : String) (b1 r1 n1 b2 r2 n2 : String) :
    maskBookingGen (mkBooking cu tx bc ps rli sd ed pl b1 r1 n1) =
      maskBookingGen (mkBooking cu tx bc ps rli sd ed pl b2 r2 n2) := rfl

theorem maskBlockerGen_mkBlocker (cu tx : Json) (ri rli : Int)
    (sd ed : String) (b1 r1 n1 b2 r2 n2 : String) :
    maskBlockerGen (mkBlocker cu tx ri rli sd ed b1 r1 n1) =
      maskBlockerGen (mkBlocker cu tx ri rli sd ed b2 r2 n2) := rfl

theorem modifyKV_singleton (k : String) (v : Json) (f : Json → Json) :
    modifyKV [(k, v)] k f = [(k, f v)] := by
  simp [modifyKV]

theorem modifyArrLast_append (xs : List Json) (x : Json) (f : Json → Json) :
    Json.modifyArrLast (.arr (xs ++ [x])) f = .arr (xs ++ [f x]) := by
  simp [Json.modifyArrLast, modifyLast_append]

theorem finish_mask_bookings (kvs : List (String × Json)) (tx : Json)
    (bs rs : List Json) (bk bl : Json) :
    modifyKV (finishKVs kvs tx bs rs bk bl) "bookings"
        (fun v => Json.modifyArrLast v maskBookingGen)
      = finishKVs kvs tx bs rs (maskBookingGen bk) bl := by
  unfold finishKVs
  rw [modifyKV_sdKV_ne _ _ _ _ _ (by decide), modifyKV_sdKV_ne _ _ _ _ _ (by decide),
    modifyKV_sdKV_ne _ _ _ _ _ (by decide), modifyKV_sdKV_ne _ _ _ _ _ (by decide),
    modifyKV_sdKV_ne _ _ _ _ _ (by decide), modifyKV_sdKV_ne _ _ _ _ _ (by decide),
    modifyKV_sdKV_ne _ _ _ _ _ (by decide), modifyKV_setKV_ne _ _ _ _ _ (by decide),
    modifyKV_setKV_same, modifyArrLast_append]

theorem finish_mask_blockers (kvs : List (String × Json)) (tx : Json)
    (bs rs : List Json) (bk bl : Json) :
    modifyKV (finishKVs kvs tx bs rs bk bl) "resourceBlockers"
        (fun v => Json.modifyArrLast v maskBlockerGen)
      = finishKVs kvs tx bs rs bk (maskBlockerGen bl) := by
  unfold finishKVs
  rw [modifyKV_sdKV_ne _ _ _ _ _ (by decide), modifyKV_sdKV_ne _ _ _ _ _ (by decide),
    modifyKV_sdKV_ne _ _ _ _ _ (by decide), modifyKV_sdKV_ne _ _ _ _ _ (by decide),
    modifyKV_sdKV_ne _ _ _ _ _ (by decide), modifyKV_sdKV_ne _ _ _ _ _ (by decide),
    modifyKV_sdKV_ne _ _ _ _ _ (by decide), modifyKV_setKV_same,
    modifyArrLast_append]

theorem maskEnvGen_build (kvs : List (String × Json)) (tx : Json)
    (bs rs : List Json) (bk bl : Json) :
    maskEnvGen (.obj [("cart", .obj (finishKVs kvs tx bs rs bk bl))]) =
      .obj [("cart", .obj (finishKVs kvs tx bs rs
        (maskBookingGen bk) (maskBlockerGen bl)))] := by
  simp only [maskEnvGen, Json.modifyKey, modifyKV_singleton]
  rw [finish_mask_bookings, finish_mask_blockers]

/-- C9 (amended): two calls of the builder on identical cart and reservation
inputs produce envelopes that agree everywhere once the per-call generated
values are masked out — the fresh booking/blocker identifiers *and* the
`iso_now()` generation timestamps (`newVersion.completedDate` of the booking,
`newVersion.creationDate` of the blocker). -/
theorem c9_fresh_fields_only (cart : Json) (ri rli : Int) (sd ed : String)
    (ps bc : Int) (pl : String) (b1 r1 n1 b2 r2 n2 : String)
    (env1 env2 : Json)
    (h1 : build_cart_commit_payload cart ri rli sd ed ps bc pl b1 r1 n1
      = some (.ok env1))
    (h2 : build_cart_commit_payload cart ri rli sd ed ps bc pl b2 r2 n2
      = some (.ok env2)) :
    maskEnvGen env1 = maskEnvGen env2 := by
  obtain ⟨kvs, cu, tx, bs, rs, hkvs, hcu, htx, _, _, hbs, hrs, henv1⟩ :=
    build_ok_elim cart ri rli sd ed ps bc pl b1 r1 n1 env1 h1
  obtain ⟨kvs', cu', tx', bs', rs', hkvs', hcu', htx', _, _, hbs', hrs', henv2⟩ :=
    build_ok_elim cart ri rli sd ed ps bc pl b2 r2 n2 env2 h2
  subst hkvs
  obtain rfl : kvs = kvs' := Json.obj.inj hkvs'
  obtain rfl : cu = cu' := Option.some.inj (hcu.symm.trans hcu')
  obtain rfl : tx = tx' := Option.some.inj (htx.symm.trans htx')
  obtain rfl : bs = bs' := Option.some.inj (hbs.symm.trans hbs')
  obtain rfl : rs = rs' := Option.some.inj (hrs.symm.trans hrs')
  subst henv1
  subst henv2
  rw [maskEnvGen_build, maskEnvGen_build,
    maskBookingGen_mkBooking cu tx bc ps rli sd ed pl b1 r1 n1 b2 r2 n2,
    maskBlockerGen_mkBlocker cu tx ri rli sd ed b1 r1 n1 b2 r2 n2]

theorem c9_fresh_fields_only_witness :
    maskEnvGen (outEnv (build_cart_commit_payload c9CexCart 100 7
        "2026-07-15" "2026-07-17" 2 2 "en-CA" "B1" "R1" "N1"))
      = maskEnvGen (outEnv (build_cart_commit_payload c9CexCart 100 7
        "2026-07-15" "2026-07-17" 2 2 "en-CA" "B2" "R2" "N2")) :=
  c9_fresh_fields_only c9CexCart 100 7 "2026-07-15" "2026-07-17" 2 2 "en-CA"
    "B1" "R1" "N1" "B2" "R2" "N2" _ _ (by decide) (by decide)

/-- C9's counterexample as the claim is worded: two calls with identical cart
and inputs and even identical generated identifiers (so every identifier
field and every field referencing one is equal across the two envelopes)
still produce different envelopes, because the `iso_now()` timestamps
(`completedDate`/`creationDate`) differ; masking exactly the generated
fields restores equality, locating the difference outside the identifier
fields the claim allows. -/
theorem c9_counterexample :
    isOkB (build_cart_commit_payload c9CexCart 100 7 "2026-07-15"
      "2026-07-17" 2 2 "en-CA" "B" "R" "2026-01-01T00:00:00Z") = true
    ∧ isOkB (build_cart_commit_payload c9CexCart 100 7 "2026-07-15"
      "2026-07-17" 2 2 "en-CA" "B" "R" "2026-01-01T00:00:01Z") = true
    ∧ build_cart_commit_payload c9CexCart 100 7 "2026-07-15" "2026-07-17"
        2 2 "en-CA" "B" "R" "2026-01-01T00:00:00Z"
      ≠ build_cart_commit_payload c9CexCart 100 7 "2026-07-15" "2026-07-17"
        2 2 "en-CA" "B" "R" "2026-01-01T00:00:01Z"
    ∧ maskEnvGen (outEnv (build_cart_commit_payload c9CexCart 100 7
        "2026-07-15" "2026-07-17" 2 2 "en-CA" "B" "R" "2026-01-01T00:00:00Z"))
      = maskEnvGen (outEnv (build_cart_commit_payload c9CexCart 100 7
        "2026-07-15" "2026-07-17" 2 2 "en-CA" "B" "R" "2026-01-01T00:00:01Z")) :=
  ⟨by decide, by decide, by decide, by decide⟩

/-! ### C10: the output cart's frame -/

/-- C10 (amended): for every accepted cart, the cart inside the returned
envelope differs from the input cart only at the keys the code writes:
`createTransactionUid` becomes `old or tx` (so it is replaced by the resolved
transaction uid whenever it was absent **or falsy** — empty, null, false or
zero — and kept otherwise); `bookings` and `resourceBlockers` become the
input collections (empty when absent **or falsy**) with exactly one new
element appended at the end; the seven schema collections become `[]` exactly
when absent; every other key keeps its value — in particular no other key is
added. -/
theorem c10_output_cart_frame (cart : Json) (ri rli : Int) (sd ed : String)
    (ps bc : Int) (pl b r n : String) (env : Json)
    (hb : build_cart_commit_payload cart ri rli sd ed ps bc pl b r n
      = some (.ok env)) :
    ∃ cartOut tx bs rs,
      env = .obj [("cart", cartOut)] ∧
      resolveTx cart = some tx ∧
      pyOrList ((cart.get? "bookings").getD .null) = some bs ∧
      pyOrList ((cart.get? "resourceBlockers").getD .null) = some rs ∧
      cartOut.get? "createTransactionUid"
        = some (pyOr ((cart.get? "createTransactionUid").getD .null) tx) ∧
      (∃ bk, cartOut.get? "bookings" = some (.arr (bs ++ [bk]))) ∧
      (∃ bl, cartOut.get? "resourceBlockers" = some (.arr (rs ++ [bl]))) ∧
      (∀ k ∈ sdKeys7, cartOut.get? k = some ((cart.get? k).getD (.arr []))) ∧
      (∀ k, k ∉ specialKeys → cartOut.get? k = cart.get? k) := by
  obtain ⟨kvs, cu, tx, bs, rs, hkvs, hcu, htx, hcut, htxt, hbs, hrs, henv⟩ :=
    build_ok_elim cart ri rli sd ed ps bc pl b r n env hb
  subst hkvs
  subst henv
  refine ⟨.obj (finishKVs kvs tx bs rs
      (mkBooking cu tx bc ps rli sd ed pl b r n)
      (mkBlocker cu tx ri rli sd ed b r n)), tx, bs, rs, rfl, htx,
    by simpa [Json.get?] using hbs, by simpa [Json.get?] using hrs,
    ?_, ⟨mkBooking cu tx bc ps rli sd ed pl b r n, ?_⟩,
    ⟨mkBlocker cu tx ri rli sd ed b r n, ?_⟩, ?_, ?_⟩
  · simp [Json.get?, finishKVs, lookupKV_sdKV, lookupKV_setKV]
  · simp [Json.get?, finishKVs, lookupKV_sdKV, lookupKV_setKV]
  · simp [Json.get?, finishKVs, lookupKV_sdKV, lookupKV_setKV]
  · intro k hk
    simp only [sdKeys7, List.mem_cons, List.not_mem_nil, or_false] at hk
    rcases hk with rfl | rfl | rfl | rfl | rfl | rfl | rfl <;>
      simp [Json.get?, finishKVs, lookupKV_sdKV, lookupKV_setKV]
  · intro k hk
    simp only [specialKeys, sdKeys7, List.mem_cons, List.not_mem_nil,
      or_false] at hk
    push_neg at hk
    obtain ⟨h1, h2, h3, h4, h5, h6, h7, h8, h9, h10⟩ := hk
    simp [Json.get?, finishKVs, lookupKV_sdKV, lookupKV_setKV,
      h1, h2, h3, h4, h5, h6, h7, h8, h9, h10]

theorem c10_output_cart_frame_witness :
    (((outEnv (build_cart_commit_payload c9CexCart 100 7 "2026-07-15"
        "2026-07-17" 2 2 "en-CA" "B" "R" "N")).get? "cart").getD .null).get?
        "createTransactionUid" = some (.str "t") := by
  obtain ⟨cartOut, tx, bs, rs, henv, htx, hbs, hrs, hctx, _⟩ :=
    c10_output_cart_frame c9CexCart 100 7 "2026-07-15" "2026-07-17" 2 2
      "en-CA" "B" "R" "N"
      (outEnv (build_cart_commit_payload c9CexCart 100 7 "2026-07-15"
        "2026-07-17" 2 2 "en-CA" "B" "R" "N")) (by decide)
  rw [henv]
  have htx' : tx = .str "t" := by
    have ht : resolveTx c9CexCart = some (.str "t") := by decide
    exact Option.some.inj (htx.symm.trans ht)
  subst htx'
  simpa [Json.get?, lookupKV, c9CexCart, pyOr, pyTruthy] using hctx

/-- C10's counterexample as the claim is worded: a cart whose
`createTransactionUid` is present, non-empty and non-absent (`false`) is
accepted (the nested transaction uid resolves to `"t"`), and the code
replaces the falsy value with `"t"` — but the claim only licenses that
replacement "when it was absent or empty", so its frame predicate fails on
the produced cart; the same predicate holds on a well-behaved cart, so the
failure is not an artifact of the formalisation. -/
theorem c10_counterexample :
    isOkB (build_cart_commit_payload c10CexCart 100 7 "2026-07-15"
      "2026-07-17" 2 2 "en-CA" "B" "R" "N") = true
    ∧ resolveTx c10CexCart = some (.str "t")
    ∧ c10_claim_frame c10CexCart
        (((outEnv (build_cart_commit_payload c10CexCart 100 7 "2026-07-15"
          "2026-07-17" 2 2 "en-CA" "B" "R" "N")).get? "cart").getD .null)
        (.str "t") = false
    ∧ c10_claim_frame c9CexCart
        (((outEnv (build_cart_commit_payload c9CexCart 100 7 "2026-07-15"
          "2026-07-17" 2 2 "en-CA" "B" "R" "N")).get? "cart").getD .null)
        (.str "t") = true :=
  ⟨by decide, by decide, by decide, by decide⟩

end OPWatch
